import Mathlib

/-!
Shallow embedding of the pc-store backend (TypeScript/Express/Mongoose) core
logic: user registration with external identity provisioning
(src/backend/src/services/AuthService.ts, src/backend/src/utils/keycloakAdmin.ts),
category and product controllers with pagination, search and best-effort
Cloudinary image cleanup (src/backend/src/controllers/ProductController.ts,
src/backend/src/controllers/CategoryController.ts, and the CategoryController
variant in src/unnamed/part_003 that performs image cleanup).

JavaScript strings are modelled as Lean `String` / `List Char`; the handful of
JS string/number primitives the code uses (`toLowerCase`, `split`, `includes`,
`parseInt`, truthiness, `Math.ceil`) are given explicit ASCII-faithful models
below.  External effects (MongoDB, Keycloak, Cloudinary) are modelled by
explicit stores, outcome parameters and call logs.
-/

namespace PcStore

/-! ## JS string primitives -/

/-- ASCII case folding of `String.prototype.toLowerCase` (the only characters
the slug transform and the case-insensitive search can be affected by are
ASCII letters). -/
def jsToLower (c : Char) : Char :=
  if 65 ≤ c.toNat ∧ c.toNat ≤ 90 then Char.ofNat (c.toNat + 32) else c

/-- Characters matched by the regex class `[a-z0-9]`. -/
def isSlugChar (c : Char) : Bool :=
  (97 ≤ c.toNat && c.toNat ≤ 122) || (48 ≤ c.toNat && c.toNat ≤ 57)

/-- Boolean prefix test on char lists. -/
def isPrefixB : List Char → List Char → Bool
  | [], _ => true
  | _ :: _, [] => false
  | a :: as, b :: bs => a == b && isPrefixB as bs

/-- Boolean infix (substring) test on char lists; models
`String.prototype.includes`. -/
def isInfixB (pat : List Char) : List Char → Bool
  | [] => isPrefixB pat []
  | c :: rest => isPrefixB pat (c :: rest) || isInfixB pat rest

/-- `s.includes(pat)` on JS strings. -/
def jsIncludes (s pat : String) : Bool :=
  isInfixB pat.toList s.toList

/-- Case-insensitive substring match: models a `$regex: pat, $options: "i"`
MongoDB filter for a metacharacter-free pattern, which is how the controllers
use it (spec section 4.4: case-insensitive substring). -/
def jsIncludesCI (s pat : String) : Bool :=
  isInfixB (pat.toList.map jsToLower) (s.toList.map jsToLower)

/-- Whitespace removed by `String.prototype.trim`. -/
def isJsWs (c : Char) : Bool :=
  c == ' ' || c == '\t' || c == '\n' || c == '\r'

/-- `s.trim()` is truthy (non-empty after trimming). -/
def jsTrimTruthy (s : String) : Bool :=
  !(s.toList.all isJsWs)

/-- Numeric value of a run of ASCII digits. -/
def digitsVal (ds : List Char) : Nat :=
  ds.foldl (fun a c => a * 10 + (c.toNat - 48)) 0

/-- `parseInt(s)` in base 10: skip leading whitespace, optional sign, then a
maximal run of digits; `none` models `NaN`. -/
def jsParseInt (s : String) : Option Int :=
  let cs := s.toList.dropWhile isJsWs
  let signAndRest : Int × List Char :=
    match cs with
    | '-' :: r => (-1, r)
    | '+' :: r => (1, r)
    | r => (1, r)
  let ds := signAndRest.2.takeWhile Char.isDigit
  if ds.isEmpty then none
  else some (signAndRest.1 * (digitsVal ds : Int))

/-- `parseInt(q)` where `q` is an optional query parameter
(`parseInt(undefined)` is `NaN`). -/
def jsParseIntOpt (q : Option String) : Option Int :=
  match q with
  | none => none
  | some s => jsParseInt s

/-- `v || d` for a JS number `v` that is either `NaN` (`none`) or an integer:
`NaN` and `0` are falsy. -/
def jsOrInt (v : Option Int) (d : Int) : Int :=
  match v with
  | none => d
  | some n => if n = 0 then d else n

/-- Effective integer query parameter: `parseInt(req.query.x as string) || d`. -/
def effInt (q : Option String) (d : Int) : Int :=
  jsOrInt (jsParseIntOpt q) d

/-- `Math.ceil(a / b)` for a non-negative integer numerator `a` and integer
denominator `b`; JS division is real division, so the model is the rational
ceiling.  (For `b = 0` JS yields `Infinity`/`NaN`; the controllers can never
call this with `b = 0` because `parseInt(..) || 10` is never `0`.) -/
def jsCeilDiv (a : Nat) (b : Int) : Int :=
  ⌈(a : ℚ) / (b : ℚ)⌉

/-! ## Slug derivation

`name.toLowerCase().replace(/[^a-z0-9]+/g, '-').replace(/(^-|-$)/g, '')`
(CategoryController.ts lines 21 and 155). -/

/-- Replace every maximal run of characters outside `[a-z0-9]` by a single
hyphen.  The boolean flag records whether the previous character was part of
such a run (so the run only emits one hyphen). -/
def collapseAux : Bool → List Char → List Char
  | _, [] => []
  | inRun, c :: cs =>
    if isSlugChar c then c :: collapseAux false cs
    else if inRun then collapseAux true cs
    else '-' :: collapseAux true cs

/-- `replace(/[^a-z0-9]+/g, '-')`. -/
def collapseRuns (s : List Char) : List Char :=
  collapseAux false s

/-- `replace(/(^-|-$)/g, '')`: the global regex removes one leading hyphen and
one trailing hyphen (the anchors can each match at most once). -/
def stripLead (l : List Char) : List Char :=
  match l with
  | [] => []
  | c :: cs => if c = '-' then cs else c :: cs

def stripEdges (s : List Char) : List Char :=
  (stripLead (stripLead s).reverse).reverse

/-- Slug derivation exactly as in `createCategory` / `updateCategory`. -/
def slugify (name : String) : String :=
  ⟨stripEdges (collapseRuns (name.toList.map jsToLower))⟩

/-- Split a char list at every `'/'` (JS `url.split('/')`; a single-character
separator splits at each occurrence, keeping empty segments). -/
def splitSlash : List Char → List (List Char)
  | [] => [[]]
  | '/' :: rest => [] :: splitSlash rest
  | c :: rest =>
    match splitSlash rest with
    | [] => [[c]]
    | h :: t => (c :: h) :: t

/-- `parts.join('/')`. -/
def joinSlash : List (List Char) → List Char
  | [] => []
  | [p] => p
  | p :: ps => p ++ '/' :: joinSlash ps

/-! ## Registration (AuthService.registerUser + keycloakAdmin.createUserInKeycloak) -/

/-- A record in the Local User Store (models/User). -/
structure LocalUser where
  keycloakId : String
  username : String
  email : String
  role : String
deriving DecidableEq

/-- Outcome of the external Keycloak admin API interaction, seen from
`createUserInKeycloak`: either every HTTP call up to user creation succeeded
(`ok`, carrying the `Location` response header and whether the best-effort
role assignment succeeded), or the token fetch or the user-creation call threw
(`fail`, carrying the axios response status when a response exists — `none`
models a network error without response — and the diagnostic detail string
`errorMessage`/`error` field of the response data, or `error.message`). -/
inductive KcOutcome where
  | ok (locationHeader : String) (roleAssignOk : Bool)
  | fail (atTokenFetch : Bool) (status : Option Nat) (detail : String)

/-- Errors thrown out of `createUserInKeycloak` (keycloakAdmin.ts 112-131 plus
the missing-user-id throw at line 71), identified with the spec error kinds:
`conflict` = AlreadyExists (mapped from the provider), `authFailed` =
ProvisioningAuthFailed, `httpOther`/`network`/`noUserId` = ProvisioningFailed. -/
inductive KcError where
  | conflict
  | authFailed
  | httpOther (status : Nat) (detail : String)
  | network (detail : String)
  | noUserId
deriving DecidableEq

/-- The `message` of the `Error` thrown for each failure. -/
def KcError.message : KcError → String
  | .conflict => "User already exists in Keycloak"
  | .authFailed => "Keycloak authentication failed - check admin credentials"
  | .httpOther s d => "Keycloak error (" ++ toString s ++ "): " ++ d
  | .network d => "Keycloak error: " ++ d
  | .noUserId => "Failed to get user ID from Keycloak response"

/-- `createUserInKeycloak` (keycloakAdmin.ts).  On success the user id is
`locationHeader.split('/').pop()`; a failing best-effort role assignment is
caught and ignored (lines 100-103), so `roleAssignOk` does not affect the
result.  Failures of the token fetch and of the user creation both land in
the same catch block and are mapped by `error.response.status`. -/
def createUserInKeycloak (outcome : KcOutcome) : Except KcError String :=
  match outcome with
  | .ok location _roleAssignOk =>
    let userId := ((location.splitOn "/").getLastD "")
    if userId = "" then .error .noUserId else .ok userId
  | .fail _ status detail =>
    match status with
    | some s =>
      if s = 409 then .error .conflict
      else if s = 401 then .error .authFailed
      else .error (.httpOther s detail)
    | none => .error (.network detail)

/-- Outcome of `newUser.save()` (the Local User Store write): success, a
mongoose validation error (`error.name === "ValidationError"`), or any other
database error. -/
inductive SaveOutcome where
  | ok
  | validationError (msg : String)
  | otherError (msg : String)

/-- The catch block of `AuthService.registerUser` (AuthService.ts 33-50):
rethrow duplicates verbatim, collapse Keycloak failures, map validation
failures, else a generic failure. -/
def mapRegistrationError (errName msg : String) : String :=
  if jsIncludes msg "already exists" then msg
  else if jsIncludes msg "Keycloak" then "Failed to create user in authentication service"
  else if errName = "ValidationError" then "Invalid user data provided"
  else "Registration failed. Please try again."

/-- Result of one `registerUser` request: the response (error message or the
saved user), the number of identity-provisioning calls made during the
request, and the Local User Store afterwards. -/
structure RegResult where
  result : Except String LocalUser
  kcCalls : Nat
  store : List LocalUser

/-- `AuthService.registerUser` (AuthService.ts 6-51).  Step 1: uniqueness
check `findOne({$or: [{username}, {email}]})`; step 2: provision in Keycloak;
step 3: save the local record.  Every throw is routed through the catch
block (`mapRegistrationError`). -/
def registerUser (st : List LocalUser) (kc : KcOutcome) (save : SaveOutcome)
    (username email _password : String) : RegResult :=
  if st.any (fun u => u.username == username || u.email == email) then
    { result := .error (mapRegistrationError "Error"
        "User with this username or email already exists")
      kcCalls := 0
      store := st }
  else
    match createUserInKeycloak kc with
    | .error e =>
      { result := .error (mapRegistrationError "Error" e.message)
        kcCalls := 1
        store := st }
    | .ok uid =>
      let newUser : LocalUser := ⟨uid, username, email, "user"⟩
      match save with
      | .ok =>
        { result := .ok newUser, kcCalls := 1, store := st ++ [newUser] }
      | .validationError m =>
        { result := .error (mapRegistrationError "ValidationError" m)
          kcCalls := 1
          store := st }
      | .otherError m =>
        { result := .error (mapRegistrationError "Error" m)
          kcCalls := 1
          store := st }

/-! ## Cloudinary asset-id extraction (src/unnamed/part_003, lines 10-35;
the same computation is inlined in ProductController.deleteProduct and
ProductController.updateProduct). -/

/-- `pathAfterUpload.replace(/^v\d+\//, '')`: strip a leading `v<digits>/`.
The regex is anchored, `\d+` is greedy and backtracking cannot help (giving
back a digit leaves a digit where `/` is required), so taking the maximal
digit run is exact. -/
def stripVersion (s : List Char) : List Char :=
  match s with
  | 'v' :: rest =>
    let ds := rest.takeWhile Char.isDigit
    let rest2 := rest.dropWhile Char.isDigit
    if ds.isEmpty then s
    else
      match rest2 with
      | '/' :: tail => tail
      | _ => s
  | _ => s

/-- `pathWithoutVersion.replace(/\.[^/.]+$/, '')`: strip a trailing file
extension.  Because `[^/.]+` excludes `.` and `/`, only the last dot can
start a match, and only if at least one character follows it and no `/` or
`.` occurs after it. -/
def stripExt (s : List Char) : List Char :=
  let r := s.reverse
  let ext := r.takeWhile (fun c => !(c == '.' || c == '/'))
  let rest := r.dropWhile (fun c => !(c == '.' || c == '/'))
  match rest with
  | '.' :: tail => if ext.isEmpty then s else tail.reverse
  | _ => s

/-- `extractPublicIdFromUrl` (src/unnamed/part_003 lines 10-35): split the URL
on `/`, find the first segment equal to `upload`; if none, return `null`;
otherwise join everything after it, strip an optional version prefix and the
file extension. -/
def extractPublicIdFromUrl (url : String) : Option String :=
  let urlParts := splitSlash url.toList
  match urlParts.findIdx? (fun part => part == "upload".toList) with
  | none => none
  | some uploadIndex =>
    let pathAfterUpload := joinSlash (urlParts.drop (uploadIndex + 1))
    some ⟨stripExt (stripVersion pathAfterUpload)⟩

/-- Log of the Cloudinary traffic caused by one request: `attempts` records
the image URLs for which a cleanup attempt was started (the per-image
try-block was entered), `destroyCalls` records each actual
`cloudinary.uploader.destroy` call as (publicId, call succeeded?). -/
structure CloudinaryLog where
  attempts : List String
  destroyCalls : List (String × Bool)
deriving DecidableEq

def CloudinaryLog.empty : CloudinaryLog := ⟨[], []⟩

/-- `deleteImageFromCloudinary` (src/unnamed/part_003 lines 41-58): no-op on a
falsy URL; extract the public id, and warn and return when it is falsy — the
JS guard `!publicId` skips the destroy both for `null` and for the empty
string; otherwise call `destroy`, catching and swallowing any failure.
`destroyOk` is the oracle telling whether the remote call would succeed. -/
def deleteImageFromCloudinary (destroyOk : String → Bool) (imageUrl : String) :
    CloudinaryLog :=
  if imageUrl = "" then .empty
  else
    match extractPublicIdFromUrl imageUrl with
    | none => { attempts := [imageUrl], destroyCalls := [] }
    | some publicId =>
      if publicId = "" then { attempts := [imageUrl], destroyCalls := [] }
      else
        { attempts := [imageUrl], destroyCalls := [(publicId, destroyOk publicId)] }

/-! ## Category model (src/backend/src/controllers/CategoryController.ts and
the variant with image cleanup in src/unnamed/part_003). -/

/-- A Category document.  `description` is `Option` because the field may be
absent (mongoose stores whatever the request supplied). -/
structure Category where
  id : String
  name : String
  slug : String
  description : Option String
  image : String
  createdAt : Nat
deriving DecidableEq

/-- Request body of a category create/update: absent fields are `none`. -/
structure CatBody where
  name : Option String
  description : Option String
  image : Option String

inductive CatResult where
  | badRequest (msg : String)
  | notFound
  | ok (c : Category)
deriving DecidableEq

/-- `createCategory` (identical in both controller variants, lines 5-50 /
61-106): require a truthy name, derive the slug, reject an existing category
with the same name or slug, store `image: image || ""`.  `newId` and
`createdAt` stand for the values MongoDB generates. -/
def createCategory (store : List Category) (newId : String) (createdAt : Nat)
    (b : CatBody) : CatResult × List Category :=
  let name := b.name.getD ""
  if name = "" then (.badRequest "Category name is required", store)
  else
    let slug := slugify name
    if store.any (fun c => c.name == name || c.slug == slug) then
      (.badRequest "Category with this name already exists", store)
    else
      let c : Category :=
        { id := newId, name := name, slug := slug, description := b.description
          image := b.image.getD "", createdAt := createdAt }
      (.ok c, store ++ [c])

/-- `updateCategory` with image cleanup (src/unnamed/part_003 lines 191-246):
look up the category; if a truthy new image differs from a truthy stored
image, best-effort delete the old image; recompute the slug only when a
truthy name differs from the stored name (with a uniqueness check excluding
this id); persist with `findByIdAndUpdate` (absent body fields leave the
stored values unchanged). -/
def updateCategory (store : List Category) (destroyOk : String → Bool)
    (id : String) (b : CatBody) : CatResult × CloudinaryLog × List Category :=
  match store.find? (fun c => c.id == id) with
  | none => (.notFound, .empty, store)
  | some category =>
    let image := b.image.getD ""
    let log :=
      if image ≠ "" ∧ image ≠ category.image ∧ category.image ≠ "" then
        deleteImageFromCloudinary destroyOk category.image
      else .empty
    let name := b.name.getD ""
    let slug :=
      if name ≠ "" ∧ name ≠ category.name then slugify name else category.slug
    if (name ≠ "" ∧ name ≠ category.name) ∧
        store.any (fun c => c.slug == slug && c.id != id) then
      (.badRequest "Category with this name already exists", log, store)
    else
      let updated : Category :=
        { category with
          name := b.name.getD category.name
          slug := slug
          description :=
            match b.description with
            | some d => some d
            | none => category.description
          image := b.image.getD category.image }
      (.ok updated, log,
        store.map (fun c => if c.id == id then updated else c))

/-! ## Product model (src/backend/src/controllers/ProductController.ts). -/

/-- A Product document.  `category` is the referenced category id; the read
paths `populate` it for enrichment, which does not change any field modelled
here and is omitted. -/
structure Product where
  id : String
  name : String
  brand : String
  description : String
  category : String
  price : Int
  stock : Int
  featured : Bool
  images : List String
  createdAt : Nat
deriving DecidableEq

/-- The `images` field of a product request body: an array, a single string,
or absent (`undefined`). -/
inductive ImagesField where
  | arr (l : List String)
  | str (s : String)
  | absent

/-- Image normalisation shared by `createProduct` and `updateProduct`
(ProductController.ts 19-25 / 204-210): accept an array as is, wrap a
non-blank string, otherwise the empty list. -/
def normalizeImages : ImagesField → List String
  | .arr l => l
  | .str s => if jsTrimTruthy s then [s] else []
  | .absent => []

/-- Product create/update request body.  The required-field check
`!name || !brand || !category || !price` reads falsiness, which for the
string fields means the empty string and for `price` means `0` (absent
fields are modelled by those falsy values). -/
structure ProductBody where
  name : String
  brand : String
  description : String
  category : String
  price : Int
  stock : Int
  featured : Bool
  images : ImagesField

inductive ProductResult where
  | badRequest (msg : String)
  | notFound
  | ok (p : Product)
deriving DecidableEq

/-- The public-id extraction inlined in `updateProduct` (lines 221-238) and
`deleteProduct` (lines 125-145) is character-for-character the computation of
`extractPublicIdFromUrl`, with the destroy call skipped when no `upload`
segment exists; this helper is that inline block. -/
def inlineImageCleanup (destroyOk : String → Bool) (imageUrl : String) :
    CloudinaryLog :=
  match extractPublicIdFromUrl imageUrl with
  | none => { attempts := [imageUrl], destroyCalls := [] }
  | some publicId =>
    { attempts := [imageUrl], destroyCalls := [(publicId, destroyOk publicId)] }

/-- `updateProduct` (ProductController.ts 179-272): look up the product,
validate required fields, normalise the new images, compare only the first
stored image with the first new image and best-effort delete the old first
image when both are truthy and differ (the try/catch swallows destroy
failures), then persist all fields. -/
def updateProduct (store : List Product) (destroyOk : String → Bool)
    (id : String) (b : ProductBody) :
    ProductResult × CloudinaryLog × List Product :=
  if id = "" then (.badRequest "Product ID is required", .empty, store)
  else
    match store.find? (fun p => p.id == id) with
    | none => (.notFound, .empty, store)
    | some existingProduct =>
      if b.name = "" ∨ b.brand = "" ∨ b.category = "" ∨ b.price = 0 then
        (.badRequest "Missing required fields: name, brand, category, price",
          .empty, store)
      else
        let newImageArray := normalizeImages b.images
        let log :=
          if existingProduct.images ≠ [] then
            let oldFirstImage := existingProduct.images.headD ""
            let newFirstImage := newImageArray.headD ""
            if oldFirstImage ≠ "" ∧ newFirstImage ≠ "" ∧
                oldFirstImage ≠ newFirstImage then
              inlineImageCleanup destroyOk oldFirstImage
            else .empty
          else .empty
        let updated : Product :=
          { existingProduct with
            name := b.name, brand := b.brand, description := b.description
            category := b.category, price := b.price, stock := b.stock
            featured := b.featured, images := newImageArray }
        (.ok updated, log,
          store.map (fun p => if p.id == id then updated else p))

/-- `deleteProduct` (ProductController.ts 102-172): look up the product, start
one cleanup attempt per image URL (each in its own try/catch, so a failing
destroy never stops the others), await them all, then remove the record and
return it.  The attempts are independent; the list order stands for the
creation order of the promises (no ordering guarantee is claimed of the
remote calls themselves). -/
def deleteProduct (store : List Product) (destroyOk : String → Bool)
    (id : String) : ProductResult × CloudinaryLog × List Product :=
  if id = "" then (.badRequest "Product ID is required", .empty, store)
  else
    match store.find? (fun p => p.id == id) with
    | none => (.notFound, .empty, store)
    | some product =>
      let log : CloudinaryLog :=
        { attempts := product.images
          destroyCalls := product.images.filterMap
            (fun u => (extractPublicIdFromUrl u).map
              (fun pid => (pid, destroyOk pid))) }
      (.ok product, log, store.filter (fun p => !(p.id == id)))

/-! ## Catalog query service (getAllProducts / getAllCategories). -/

/-- Search filter of `getAllProducts` (lines 58-66): OR over name, brand,
description. -/
def productMatches (search : String) (p : Product) : Bool :=
  jsIncludesCI p.name search || jsIncludesCI p.brand search ||
    jsIncludesCI p.description search

/-- Search filter of `getAllCategories` (lines 67-77): OR over name,
description, slug (a missing description matches nothing). -/
def categoryMatches (search : String) (c : Category) : Bool :=
  jsIncludesCI c.name search ||
    (match c.description with
     | some d => jsIncludesCI d search
     | none => false) ||
    jsIncludesCI c.slug search

/-- `sort({ createdAt: -1 })`: newest first. -/
def byNewest (a b : Product) : Prop := b.createdAt ≤ a.createdAt

instance : DecidableRel byNewest := fun a b => Nat.decLe b.createdAt a.createdAt

instance : IsTotal Product byNewest :=
  ⟨fun a b => Nat.le_total b.createdAt a.createdAt⟩

instance : IsTrans Product byNewest :=
  ⟨fun _ _ _ h1 h2 => Nat.le_trans h2 h1⟩

def byNewestCat (a b : Category) : Prop := b.createdAt ≤ a.createdAt

instance : DecidableRel byNewestCat :=
  fun a b => Nat.decLe b.createdAt a.createdAt

instance : IsTotal Category byNewestCat :=
  ⟨fun a b => Nat.le_total b.createdAt a.createdAt⟩

instance : IsTrans Category byNewestCat :=
  ⟨fun _ _ _ h1 h2 => Nat.le_trans h2 h1⟩

/-- Pagination envelope of the product listing (lines 81-88). -/
structure ProductPagination where
  currentPage : Int
  totalPages : Int
  totalProducts : Nat
  hasNextPage : Bool
  hasPrevPage : Bool
  limit : Int
deriving DecidableEq

structure ProductListResponse where
  products : List Product
  pagination : ProductPagination
deriving DecidableEq

/-- `getAllProducts` (ProductController.ts 51-95).  `page` and `limit` default
through `parseInt(..) || d`; the filtered total count is taken over the whole
collection; `skip = (page - 1) * limit`; results sorted newest first, then the
page window applied.  (For the negative page/limit values MongoDB would
reject, `Int.toNat` clamps to `0`; no claim touches those inputs.) -/
def getAllProducts (db : List Product) (pageQ limitQ searchQ : Option String) :
    ProductListResponse :=
  let page := effInt pageQ 1
  let limit := effInt limitQ 10
  let search := searchQ.getD ""
  let filtered :=
    if jsTrimTruthy search then db.filter (productMatches search) else db
  let totalProducts := filtered.length
  let totalPages := jsCeilDiv totalProducts limit
  let skip := (page - 1) * limit
  let sorted := filtered.insertionSort byNewest
  let products := (sorted.drop skip.toNat).take limit.toNat
  { products := products
    pagination :=
      { currentPage := page, totalPages := totalPages
        totalProducts := totalProducts
        hasNextPage := decide (page < totalPages)
        hasPrevPage := decide (1 < page), limit := limit } }

/-- Pagination envelope of the category listing (lines 92-99). -/
structure CategoryPagination where
  currentPage : Int
  totalPages : Int
  totalCategories : Nat
  hasNextPage : Bool
  hasPrevPage : Bool
  limit : Int
deriving DecidableEq

structure CategoryListResponse where
  categories : List Category
  pagination : CategoryPagination
deriving DecidableEq

/-- `getAllCategories` (CategoryController.ts 53-107), same shape as
`getAllProducts` with the category search fields. -/
def getAllCategories (db : List Category)
    (pageQ limitQ searchQ : Option String) : CategoryListResponse :=
  let page := effInt pageQ 1
  let limit := effInt limitQ 10
  let search := searchQ.getD ""
  let filtered :=
    if jsTrimTruthy search then db.filter (categoryMatches search) else db
  let totalCategories := filtered.length
  let totalPages := jsCeilDiv totalCategories limit
  let skip := (page - 1) * limit
  let sorted := filtered.insertionSort byNewestCat
  let categories := (sorted.drop skip.toNat).take limit.toNat
  { categories := categories
    pagination :=
      { currentPage := page, totalPages := totalPages
        totalCategories := totalCategories
        hasNextPage := decide (page < totalPages)
        hasPrevPage := decide (1 < page), limit := limit } }

/-! ## Concrete data used in the scenario parts of the claims and in the
witnesses -/

def demoUser : LocalUser :=
  { keycloakId := "kc-1", username := "alice", email := "alice@pc.store"
    role := "user" }

/-- Fifteen products whose names all match the search term `rtx`
(spec section 8 scenario: 15 matching products, page 2, limit 10). -/
def demoProduct (i : Nat) : Product :=
  { id := toString i, name := "RTX card " ++ toString i, brand := "nv"
    description := "", category := "cat-gpu", price := 100, stock := 1
    featured := false, images := [], createdAt := i }

def demoDb : List Product := (List.range 15).map demoProduct

def demoUrl1 : String :=
  "https://res.cloudinary.com/demo/image/upload/v1700000000/cats/one.jpg"

def demoUrl2 : String :=
  "https://res.cloudinary.com/demo/image/upload/v1700000001/cats/two.jpg"

def demoUrl3 : String :=
  "https://res.cloudinary.com/demo/image/upload/v1700000002/cats/three.jpg"

def demoProductWithImages : Product :=
  { id := "p1", name := "GPU", brand := "nv", description := ""
    category := "cat-gpu", price := 100, stock := 1, featured := false
    images := [demoUrl1, demoUrl2, demoUrl3], createdAt := 5 }

def demoProductBody : ProductBody :=
  { name := "GPU", brand := "nv", description := "", category := "cat-gpu"
    price := 100, stock := 1, featured := false
    images := .arr [demoUrl2] }

def demoCategoryWith (u : String) : Category :=
  { id := "c1", name := "Cat", slug := "cat", description := none
    image := u, createdAt := 0 }

/-! ## Lemmas about the slug transform -/

/-- Slug alphabet closed under the transform: chars of a collapsed list. -/
def AllSOH (l : List Char) : Prop := ∀ c ∈ l, isSlugChar c = true ∨ c = '-'

/-- No two adjacent hyphens. -/
def NoDouble (l : List Char) : Prop :=
  l.Chain' (fun a b => ¬(a = '-' ∧ b = '-'))

/-- The first character, when present, is not a hyphen. -/
def HeadOk (l : List Char) : Prop := ∀ c, l.head? = some c → c ≠ '-'

theorem isSlugChar_ne_hyphen {c : Char} (h : isSlugChar c = true) : c ≠ '-' := by
  intro hc
  subst hc
  simp [isSlugChar] at h

theorem jsToLower_fix {c : Char} (h : isSlugChar c = true ∨ c = '-') :
    jsToLower c = c := by
  rcases h with h | h
  · simp only [isSlugChar, Bool.or_eq_true, Bool.and_eq_true,
      decide_eq_true_eq] at h
    unfold jsToLower
    rw [if_neg]
    omega
  · subst h
    decide

theorem collapseAux_cons (b : Bool) (c : Char) (cs : List Char) :
    collapseAux b (c :: cs) =
      if isSlugChar c then c :: collapseAux false cs
      else if b then collapseAux true cs
      else '-' :: collapseAux true cs := rfl

theorem allSOH_collapseAux : ∀ (s : List Char) (b : Bool),
    AllSOH (collapseAux b s) := by
  intro s
  induction s with
  | nil => intro b c hc; simp [collapseAux] at hc
  | cons c cs ih =>
    intro b d hd
    rw [collapseAux_cons] at hd
    by_cases hslug : isSlugChar c = true
    · rw [if_pos hslug] at hd
      rcases List.mem_cons.mp hd with hd | hd
      · subst hd; exact Or.inl hslug
      · exact ih false d hd
    · rw [if_neg (by simpa using hslug)] at hd
      cases b with
      | true => rw [if_pos rfl] at hd; exact ih true d hd
      | false =>
        rw [if_neg (by simp)] at hd
        rcases List.mem_cons.mp hd with hd | hd
        · subst hd; exact Or.inr rfl
        · exact ih true d hd

theorem noDouble_collapseAux : ∀ (s : List Char) (b : Bool),
    NoDouble (collapseAux b s) ∧ (b = true → HeadOk (collapseAux b s)) := by
  intro s
  induction s with
  | nil =>
    intro b
    exact ⟨List.chain'_nil, fun _ _ h => by simp [collapseAux] at h⟩
  | cons c cs ih =>
    intro b
    rw [collapseAux_cons]
    by_cases hslug : isSlugChar c = true
    · rw [if_pos hslug]
      constructor
      · rw [NoDouble, List.chain'_cons']
        refine ⟨fun y _ => ?_, (ih false).1⟩
        rintro ⟨hc, -⟩
        exact isSlugChar_ne_hyphen hslug hc
      · intro _ d hd hdh
        simp only [List.head?_cons, Option.some.injEq] at hd
        subst hd
        exact isSlugChar_ne_hyphen hslug hdh
    · rw [if_neg (by simpa using hslug)]
      cases b with
      | true =>
        rw [if_pos rfl]
        exact ⟨(ih true).1, fun _ => (ih true).2 rfl⟩
      | false =>
        rw [if_neg (by simp)]
        constructor
        · rw [NoDouble, List.chain'_cons']
          refine ⟨fun y hy => ?_, (ih true).1⟩
          rintro ⟨-, hy'⟩
          exact (ih true).2 rfl y hy hy'
        · intro h; cases h

theorem headOk_stripLead {l : List Char} (h : NoDouble l) : HeadOk (stripLead l) := by
  cases l with
  | nil => intro c hc; simp [stripLead] at hc
  | cons c cs =>
    by_cases hc : c = '-'
    · subst hc
      rw [stripLead, if_pos rfl]
      intro d hd hdh
      subst hdh
      rw [NoDouble, List.chain'_cons'] at h
      exact h.1 '-' hd ⟨rfl, rfl⟩
    · rw [stripLead, if_neg hc]
      intro d hd hdh
      subst hdh
      simp only [List.head?_cons, Option.some.injEq] at hd
      exact hc hd

theorem stripLead_of_headOk {l : List Char} (h : HeadOk l) : stripLead l = l := by
  cases l with
  | nil => rfl
  | cons c cs =>
    rw [stripLead, if_neg]
    exact h c rfl

theorem noDouble_stripLead {l : List Char} (h : NoDouble l) :
    NoDouble (stripLead l) := by
  cases l with
  | nil => exact h
  | cons c cs =>
    by_cases hc : c = '-'
    · rw [stripLead, if_pos hc]
      exact h.tail
    · rw [stripLead, if_neg hc]
      exact h

theorem noDouble_reverse {l : List Char} (h : NoDouble l) :
    NoDouble l.reverse := by
  rw [NoDouble, List.chain'_reverse]
  exact h.imp (fun a b hab hp => hab ⟨hp.2, hp.1⟩)

theorem allSOH_stripLead {l : List Char} (h : AllSOH l) : AllSOH (stripLead l) := by
  cases l with
  | nil => exact h
  | cons c cs =>
    by_cases hc : c = '-'
    · rw [stripLead, if_pos hc]
      exact fun d hd => h d (List.mem_cons_of_mem c hd)
    · rw [stripLead, if_neg hc]
      exact h

theorem allSOH_reverse {l : List Char} (h : AllSOH l) : AllSOH l.reverse :=
  fun d hd => h d (List.mem_reverse.mp hd)

theorem headOk_far_strip {l : List Char} (h : HeadOk l) :
    HeadOk ((stripLead l.reverse).reverse) := by
  intro c hc hch
  subst hch
  rw [List.head?_reverse] at hc
  cases hrev : l.reverse with
  | nil => rw [hrev] at hc; simp [stripLead] at hc
  | cons a rest =>
    rw [hrev] at hc
    by_cases ha : a = '-'
    · rw [stripLead, if_pos ha] at hc
      cases rest with
      | nil => simp at hc
      | cons b rs =>
        have : l.head? = some '-' := by
          have h1 : l = (a :: b :: rs).reverse := by
            rw [← hrev, List.reverse_reverse]
          rw [h1]
          rw [List.head?_reverse, List.getLast?_cons_cons]
          exact hc
        exact h '-' this rfl
    · rw [stripLead, if_neg ha] at hc
      have : l.head? = some '-' := by
        have h1 : l = (a :: rest).reverse := by
          rw [← hrev, List.reverse_reverse]
        rw [h1, List.head?_reverse]
        exact hc
      exact h '-' this rfl

theorem map_jsToLower_fix {l : List Char} (h : AllSOH l) :
    l.map jsToLower = l := by
  induction l with
  | nil => rfl
  | cons c cs ih =>
    rw [List.map_cons, jsToLower_fix (h c (List.mem_cons_self c cs)),
      ih (fun d hd => h d (List.mem_cons_of_mem c hd))]

theorem collapseAux_fix {l : List Char} (hs : AllSOH l) (hn : NoDouble l) :
    collapseAux false l = l ∧ (HeadOk l → collapseAux true l = l) := by
  induction l with
  | nil => exact ⟨rfl, fun _ => rfl⟩
  | cons c cs ih =>
    have hs' : AllSOH cs := fun d hd => hs d (List.mem_cons_of_mem c hd)
    have hn' : NoDouble cs := hn.tail
    rcases hs c (List.mem_cons_self c cs) with hslug | hhy
    · rw [collapseAux_cons, collapseAux_cons, if_pos hslug, if_pos hslug,
        (ih hs' hn').1]
      exact ⟨rfl, fun _ => rfl⟩
    · subst hhy
      have hns : isSlugChar '-' = true → False := by decide
      constructor
      · rw [collapseAux_cons, if_neg hns, if_neg (by simp)]
        have hho : HeadOk cs := by
          intro d hd hdh
          subst hdh
          rw [NoDouble, List.chain'_cons'] at hn
          exact hn.1 '-' hd ⟨rfl, rfl⟩
        rw [(ih hs' hn').2 hho]
      · intro hho
        exact absurd rfl (hho '-' rfl)

theorem stripEdges_idem {t : List Char} (hn : NoDouble t) :
    stripEdges (stripEdges t) = stripEdges t := by
  have h1 : HeadOk (stripLead t) := headOk_stripLead hn
  have hn1 : NoDouble (stripLead t) := noDouble_stripLead hn
  have hn2 : NoDouble (stripLead t).reverse := noDouble_reverse hn1
  have h2 : HeadOk (stripEdges t) := by
    rw [stripEdges]
    exact headOk_far_strip h1
  have h3 : HeadOk (stripEdges t).reverse := by
    rw [stripEdges, List.reverse_reverse]
    exact headOk_stripLead hn2
  rw [stripEdges, stripLead_of_headOk h2, stripLead_of_headOk h3,
    List.reverse_reverse]

theorem noDouble_stripEdges {t : List Char} (hn : NoDouble t) :
    NoDouble (stripEdges t) :=
  noDouble_reverse (noDouble_stripLead (noDouble_reverse (noDouble_stripLead hn)))

theorem allSOH_stripEdges {t : List Char} (hs : AllSOH t) :
    AllSOH (stripEdges t) :=
  allSOH_reverse (allSOH_stripLead (allSOH_reverse (allSOH_stripLead hs)))

theorem slugify_idem (name : String) : slugify (slugify name) = slugify name := by
  rw [slugify]
  set t := collapseRuns (name.toList.map jsToLower) with ht
  have hst : AllSOH t := allSOH_collapseAux _ false
  have hnt : NoDouble t := (noDouble_collapseAux _ false).1
  set w := stripEdges t with hw
  have hsw : AllSOH w := allSOH_stripEdges hst
  have hnw : NoDouble w := noDouble_stripEdges hnt
  show slugify ⟨w⟩ = ⟨w⟩
  rw [slugify]
  have htl : (String.mk w).toList = w := rfl
  rw [htl, map_jsToLower_fix hsw]
  rw [collapseRuns, (collapseAux_fix hsw hnw).1]
  rw [hw, stripEdges_idem hnt]

/-! ## Registration lemmas -/

theorem createUserInKeycloak_fail_isError (b : Bool) (status : Option Nat)
    (detail : String) :
    ∃ e, createUserInKeycloak (.fail b status detail) = Except.error e := by
  cases status with
  | none => exact ⟨_, rfl⟩
  | some s =>
    by_cases h409 : s = 409
    · subst h409; exact ⟨_, rfl⟩
    · by_cases h401 : s = 401
      · subst h401; exact ⟨_, rfl⟩
      · refine ⟨KcError.httpOther s detail, ?_⟩
        show (if s = 409 then Except.error KcError.conflict
          else if s = 401 then Except.error KcError.authFailed
          else Except.error (KcError.httpOther s detail)) =
            Except.error (KcError.httpOther s detail)
        rw [if_neg h409, if_neg h401]

/-! ## Claim theorems -/

/-- C1: for every registration request whose username or email matches an
existing record in the Local User Store, `registerUser` fails with the
AlreadyExists error and performs no identity-provisioning call; the store is
unchanged. -/
theorem claim_C1_duplicate_fails_without_provisioning
    (st : List LocalUser) (kc : KcOutcome) (save : SaveOutcome)
    (username email password : String)
    (h : st.any (fun u => u.username == username || u.email == email) = true) :
    (registerUser st kc save username email password).result =
        Except.error ("User with this username or email already exists") ∧
      (registerUser st kc save username email password).kcCalls = 0 ∧
      (registerUser st kc save username email password).store = st := by
  unfold registerUser
  rw [if_pos h]
  exact ⟨rfl, rfl, rfl⟩

theorem claim_C1_witness :
    (registerUser [demoUser] (.ok ("users/kc-2") true) .ok
        "alice" "new@pc.store" "pw").result =
        Except.error ("User with this username or email already exists") ∧
      (registerUser [demoUser] (.ok ("users/kc-2") true) .ok
        "alice" "new@pc.store" "pw").kcCalls = 0 ∧
      (registerUser [demoUser] (.ok ("users/kc-2") true) .ok
        "alice" "new@pc.store" "pw").store = [demoUser] :=
  claim_C1_duplicate_fails_without_provisioning [demoUser] _ _ _ _ _ (by decide)

/-- C2: when the uniqueness check passes but identity provisioning throws
(admin token fetch or account creation), `registerUser` fails and the Local
User Store is unchanged. -/
theorem claim_C2_provisioning_failure_no_partial_state
    (st : List LocalUser) (save : SaveOutcome) (b : Bool)
    (status : Option Nat) (detail : String) (username email password : String)
    (h : st.any (fun u => u.username == username || u.email == email) = false) :
    (registerUser st (.fail b status detail) save username email password).store
        = st ∧
      ∃ msg,
        (registerUser st (.fail b status detail) save username email
          password).result = Except.error msg := by
  obtain ⟨e, he⟩ := createUserInKeycloak_fail_isError b status detail
  unfold registerUser
  rw [if_neg (by simp [h]), he]
  exact ⟨rfl, ⟨_, rfl⟩⟩

theorem claim_C2_witness :
    (registerUser [demoUser] (.fail true (some 500) "boom") .ok
        "bob" "bob@pc.store" "pw").store = [demoUser] ∧
      ∃ msg,
        (registerUser [demoUser] (.fail true (some 500) "boom") .ok
          "bob" "bob@pc.store" "pw").result = Except.error msg :=
  claim_C2_provisioning_failure_no_partial_state [demoUser] _ _ _ _ _ _ _
    (by decide)

/-- C9: provider failures are mapped by response status: 409 yields the
AlreadyExists error (surfaced verbatim by registration), 401 yields
ProvisioningAuthFailed (KcError.authFailed), and any other provider failure
yields ProvisioningFailed (KcError.httpOther / KcError.network); in the
non-conflict cases registration fails with the generic provisioning-failure
message. -/
theorem claim_C9_provider_status_mapping
    (st : List LocalUser) (save : SaveOutcome) (b : Bool) (detail : String)
    (s : Nat) (username email password : String)
    (hno : st.any (fun u => u.username == username || u.email == email) = false)
    (h409 : s ≠ 409) (h401 : s ≠ 401)
    (hdet : jsIncludes (KcError.message (.httpOther s detail))
      ("already exists") = false)
    (hnet : jsIncludes (KcError.message (.network detail))
      ("already exists") = false) :
    createUserInKeycloak (.fail b (some 409) detail) =
        Except.error KcError.conflict ∧
      (registerUser st (.fail b (some 409) detail) save username email
          password).result =
        Except.error ("User already exists in Keycloak") ∧
      createUserInKeycloak (.fail b (some 401) detail) =
        Except.error KcError.authFailed ∧
      (registerUser st (.fail b (some 401) detail) save username email
          password).result =
        Except.error ("Failed to create user in authentication service") ∧
      createUserInKeycloak (.fail b (some s) detail) =
        Except.error (KcError.httpOther s detail) ∧
      (registerUser st (.fail b (some s) detail) save username email
          password).result =
        Except.error ("Failed to create user in authentication service") ∧
      createUserInKeycloak (.fail b none detail) =
        Except.error (KcError.network detail) ∧
      (registerUser st (.fail b none detail) save username email
          password).result =
        Except.error ("Failed to create user in authentication service") := by
  have e409 : createUserInKeycloak (.fail b (some 409) detail) =
      Except.error KcError.conflict := rfl
  have e401 : createUserInKeycloak (.fail b (some 401) detail) =
      Except.error KcError.authFailed := rfl
  have eS : createUserInKeycloak (.fail b (some s) detail) =
      Except.error (KcError.httpOther s detail) := by
    show (if s = 409 then Except.error KcError.conflict
      else if s = 401 then Except.error KcError.authFailed
      else Except.error (KcError.httpOther s detail)) =
        Except.error (KcError.httpOther s detail)
    rw [if_neg h409, if_neg h401]
  have eN : createUserInKeycloak (.fail b none detail) =
      Except.error (KcError.network detail) := rfl
  have hKs : jsIncludes (KcError.message (.httpOther s detail))
      ("Keycloak") = true := rfl
  have hKn : jsIncludes (KcError.message (.network detail))
      ("Keycloak") = true := rfl
  refine ⟨e409, ?_, e401, ?_, eS, ?_, eN, ?_⟩
  · unfold registerUser
    rw [if_neg (by simp [hno]), e409]
    rfl
  · unfold registerUser
    rw [if_neg (by simp [hno]), e401]
    rfl
  · unfold registerUser
    rw [if_neg (by simp [hno]), eS]
    show Except.error (mapRegistrationError "Error"
      (KcError.message (.httpOther s detail))) = _
    rw [mapRegistrationError, if_neg (by simp [hdet]), if_pos hKs]
  · unfold registerUser
    rw [if_neg (by simp [hno]), eN]
    show Except.error (mapRegistrationError "Error"
      (KcError.message (.network detail))) = _
    rw [mapRegistrationError, if_neg (by simp [hnet]), if_pos hKn]

theorem claim_C9_witness :
    createUserInKeycloak (.fail true (some 409) "dup") =
        Except.error KcError.conflict ∧
      (registerUser [] (.fail true (some 409) "dup") .ok
          "bob" "bob@pc.store" "pw").result =
        Except.error ("User already exists in Keycloak") ∧
      createUserInKeycloak (.fail true (some 401) "dup") =
        Except.error KcError.authFailed ∧
      (registerUser [] (.fail true (some 401) "dup") .ok
          "bob" "bob@pc.store" "pw").result =
        Except.error ("Failed to create user in authentication service") ∧
      createUserInKeycloak (.fail true (some 500) "dup") =
        Except.error (KcError.httpOther 500 "dup") ∧
      (registerUser [] (.fail true (some 500) "dup") .ok
          "bob" "bob@pc.store" "pw").result =
        Except.error ("Failed to create user in authentication service") ∧
      createUserInKeycloak (.fail true none "dup") =
        Except.error (KcError.network "dup") ∧
      (registerUser [] (.fail true none "dup") .ok
          "bob" "bob@pc.store" "pw").result =
        Except.error ("Failed to create user in authentication service") :=
  claim_C9_provider_status_mapping [] .ok true "dup" 500 "bob" "bob@pc.store"
    "pw" (by decide) (by decide) (by decide) (by decide) (by decide)

theorem findIdx?_none {α : Type _} (p : α → Bool) :
    ∀ (l : List α) (i : Nat), (∀ x ∈ l, p x = false) →
      List.findIdx? p l i = none := by
  intro l
  induction l with
  | nil => intro i _; rfl
  | cons a t ih =>
    intro i h
    have ha : p a = false := h a (List.mem_cons_self a t)
    simp only [List.findIdx?, ha, cond_false]
    exact ih (i + 1) (fun x hx => h x (List.mem_cons_of_mem a hx))

/-- C3: slug derivation is deterministic (it is a function of the name) and
idempotent, and the slug of "Graphics Cards!!" is "graphics-cards". -/
theorem claim_C3_slug_idempotent :
    (∀ name : String, slugify (slugify name) = slugify name) ∧
      slugify ("Graphics Cards!!") = "graphics-cards" :=
  ⟨slugify_idem, by decide⟩

/-- C8: `extractPublicIdFromUrl` yields "folder/pic" on the example Cloudinary
URL, and yields null (`none`) on every URL whose path has no segment literally
equal to "upload". -/
theorem claim_C8_extract_public_id (url : String)
    (h : ("upload").toList ∉ splitSlash url.toList) :
    extractPublicIdFromUrl url = none ∧
      extractPublicIdFromUrl
          ("https://host/x/image/upload/v1700000000/folder/pic.jpg") =
        some ("folder/pic") := by
  constructor
  · have hnone : (splitSlash url.toList).findIdx?
        (fun part => part == ("upload").toList) 0 = none :=
      findIdx?_none _ _ 0
        (fun x hx => beq_eq_false_iff_ne.mpr (fun hxy => h (hxy ▸ hx)))
    simp only [extractPublicIdFromUrl, hnone]
  · decide

theorem claim_C8_witness :
    extractPublicIdFromUrl ("https://host/nothing/here.jpg") = none ∧
      extractPublicIdFromUrl
          ("https://host/x/image/upload/v1700000000/folder/pic.jpg") =
        some ("folder/pic") :=
  claim_C8_extract_public_id ("https://host/nothing/here.jpg") (by decide)

/-- C5: on product update only the first element of the new images list is
compared with the first element of the stored images list; the cleanup
attempt on the old first image happens exactly when both first elements are
non-empty and differ; and whatever the destroy outcome, the update is
persisted and returned. -/
theorem claim_C5_update_compares_first_images_only
    (store : List Product) (destroyOk : String → Bool) (id : String)
    (b : ProductBody) (p : Product)
    (hid : id ≠ "") (hfind : store.find? (fun q => q.id == id) = some p)
    (hname : b.name ≠ "") (hbrand : b.brand ≠ "") (hcat : b.category ≠ "")
    (hprice : b.price ≠ 0) :
    (updateProduct store destroyOk id b).2.1.attempts =
        (if p.images.headD "" ≠ "" ∧ (normalizeImages b.images).headD "" ≠ "" ∧
            p.images.headD "" ≠ (normalizeImages b.images).headD ""
          then [p.images.headD ""] else []) ∧
      (updateProduct store destroyOk id b).1 =
        ProductResult.ok
          { p with
            name := b.name, brand := b.brand, description := b.description
            category := b.category, price := b.price, stock := b.stock
            featured := b.featured, images := normalizeImages b.images } ∧
      (updateProduct store destroyOk id b).2.2 =
        store.map
          (fun q =>
            if q.id == id then
              { p with
                name := b.name, brand := b.brand, description := b.description
                category := b.category, price := b.price, stock := b.stock
                featured := b.featured, images := normalizeImages b.images }
            else q) := by
  have hreq : ¬(b.name = "" ∨ b.brand = "" ∨ b.category = "" ∨ b.price = 0) := by
    simp [hname, hbrand, hcat, hprice]
  simp only [updateProduct, hfind]
  rw [if_neg hid, if_neg hreq]
  refine ⟨?_, rfl, rfl⟩
  by_cases hc : p.images.headD "" ≠ "" ∧ (normalizeImages b.images).headD "" ≠ "" ∧
      p.images.headD "" ≠ (normalizeImages b.images).headD ""
  · have hne : p.images ≠ [] := by
      intro hnil
      rw [hnil] at hc
      exact hc.1 rfl
    rw [if_pos hne, if_pos hc, if_pos hc]
    cases hexe : extractPublicIdFromUrl (p.images.headD "") with
    | none => simp only [inlineImageCleanup, hexe]
    | some pid => simp only [inlineImageCleanup, hexe]
  · by_cases hne : p.images ≠ []
    · rw [if_pos hne, if_neg hc, if_neg hc]
      rfl
    · rw [if_neg hne, if_neg hc]
      rfl

theorem claim_C5_witness :
    (updateProduct [demoProductWithImages] (fun _ => false) "p1"
        demoProductBody).2.1.attempts =
        (if demoProductWithImages.images.headD "" ≠ "" ∧
            (normalizeImages demoProductBody.images).headD "" ≠ "" ∧
            demoProductWithImages.images.headD "" ≠
              (normalizeImages demoProductBody.images).headD ""
          then [demoProductWithImages.images.headD ""] else []) ∧
      (updateProduct [demoProductWithImages] (fun _ => false) "p1"
          demoProductBody).1 =
        ProductResult.ok
          { demoProductWithImages with
            name := demoProductBody.name, brand := demoProductBody.brand
            description := demoProductBody.description
            category := demoProductBody.category
            price := demoProductBody.price, stock := demoProductBody.stock
            featured := demoProductBody.featured
            images := normalizeImages demoProductBody.images } ∧
      (updateProduct [demoProductWithImages] (fun _ => false) "p1"
          demoProductBody).2.2 =
        [demoProductWithImages].map
          (fun q =>
            if q.id == "p1" then
              { demoProductWithImages with
                name := demoProductBody.name, brand := demoProductBody.brand
                description := demoProductBody.description
                category := demoProductBody.category
                price := demoProductBody.price, stock := demoProductBody.stock
                featured := demoProductBody.featured
                images := normalizeImages demoProductBody.images }
            else q) :=
  claim_C5_update_compares_first_images_only [demoProductWithImages]
    (fun _ => false) "p1" demoProductBody demoProductWithImages
    (by decide) (by decide) (by decide) (by decide) (by decide) (by decide)

/-- C6: on product delete one cleanup attempt is started for every image URL
of the product (a destroy call is issued for each URL whose public id can be
extracted), each independently of the failure of the others, and the product
record is removed from storage whatever the destroy outcomes. -/
theorem claim_C6_delete_product_attempts_all_images
    (store : List Product) (destroyOk : String → Bool) (id : String)
    (p : Product) (hid : id ≠ "")
    (hfind : store.find? (fun q => q.id == id) = some p) :
    (deleteProduct store destroyOk id).2.1.attempts = p.images ∧
      (deleteProduct store destroyOk id).2.1.destroyCalls =
        p.images.filterMap
          (fun u => (extractPublicIdFromUrl u).map
            (fun pid => (pid, destroyOk pid))) ∧
      (deleteProduct store destroyOk id).1 = ProductResult.ok p ∧
      ((deleteProduct store destroyOk id).2.2).find? (fun q => q.id == id) =
        none := by
  simp only [deleteProduct, hfind]
  rw [if_neg hid]
  refine ⟨rfl, rfl, rfl, ?_⟩
  rw [List.find?_eq_none]
  intro x hx
  rw [List.mem_filter] at hx
  simpa using hx.2

theorem claim_C6_witness :
    (deleteProduct [demoProductWithImages]
        (fun pid => !(pid == ("cats/two"))) "p1").2.1.attempts =
        demoProductWithImages.images ∧
      (deleteProduct [demoProductWithImages]
          (fun pid => !(pid == ("cats/two"))) "p1").2.1.destroyCalls =
        demoProductWithImages.images.filterMap
          (fun u => (extractPublicIdFromUrl u).map
            (fun pid => (pid, (fun pid => !(pid == ("cats/two"))) pid))) ∧
      (deleteProduct [demoProductWithImages]
          (fun pid => !(pid == ("cats/two"))) "p1").1 =
        ProductResult.ok demoProductWithImages ∧
      ((deleteProduct [demoProductWithImages]
          (fun pid => !(pid == ("cats/two"))) "p1").2.2).find?
        (fun q => q.id == "p1") = none :=
  claim_C6_delete_product_attempts_all_images [demoProductWithImages]
    (fun pid => !(pid == ("cats/two"))) "p1" demoProductWithImages
    (by decide) (by decide)

/-- An update request that carries only a new image value: the slug-recompute
branch is skipped (no truthy name), the old image is best-effort deleted
exactly when the new image is truthy and differs from a truthy stored image,
and the stored record is persisted with the new image. -/
theorem updateCategory_imageOnly (store : List Category)
    (destroyOk : String → Bool) (id u : String) (cat : Category)
    (hf : store.find? (fun c => c.id == id) = some cat) :
    updateCategory store destroyOk id ⟨none, none, some u⟩ =
      (CatResult.ok { cat with image := u },
        (if u ≠ "" ∧ u ≠ cat.image ∧ cat.image ≠ "" then
          deleteImageFromCloudinary destroyOk cat.image
        else CloudinaryLog.empty),
        store.map (fun c => if c.id == id then { cat with image := u } else c)) := by
  simp only [updateCategory, hf, Option.getD_some, Option.getD_none]
  rw [if_neg (c := ("" ≠ "" ∧ "" ≠ cat.name) ∧ _) (by simp)]
  rfl

/-- C7: creating a category with image URL u1 and then updating it with a
different image URL u2 triggers exactly one destroy call, against the public
id extracted from u1 (a truthy id: the claim presupposes extractAssetId(U1)
names an asset, and the JS falsiness guard skips the destroy for an empty
extracted id); updating again with the unchanged u2 triggers no cleanup at
all. -/
theorem claim_C7_category_image_roundtrip
    (destroyOk destroyOk2 : String → Bool) (u1 u2 pid : String)
    (h1 : u1 ≠ "") (h2 : u2 ≠ "") (hne : u1 ≠ u2)
    (hex : extractPublicIdFromUrl u1 = some pid) (hpid : pid ≠ "") :
    createCategory [] "c1" 0 ⟨some ("Cat"), none, some u1⟩ =
        (CatResult.ok (demoCategoryWith u1), [demoCategoryWith u1]) ∧
      (updateCategory [demoCategoryWith u1] destroyOk "c1"
          ⟨none, none, some u2⟩).2.1.destroyCalls = [(pid, destroyOk pid)] ∧
      (updateCategory [demoCategoryWith u1] destroyOk "c1"
          ⟨none, none, some u2⟩).1 = CatResult.ok (demoCategoryWith u2) ∧
      (updateCategory [demoCategoryWith u1] destroyOk "c1"
          ⟨none, none, some u2⟩).2.2 = [demoCategoryWith u2] ∧
      (updateCategory [demoCategoryWith u2] destroyOk2 "c1"
          ⟨none, none, some u2⟩).2.1.destroyCalls = [] ∧
      (updateCategory [demoCategoryWith u2] destroyOk2 "c1"
          ⟨none, none, some u2⟩).2.1.attempts = [] := by
  have hne2 : u2 ≠ u1 := Ne.symm hne
  have hf1 : List.find? (fun c => c.id == "c1") [demoCategoryWith u1] =
      some (demoCategoryWith u1) := rfl
  have hf2 : List.find? (fun c => c.id == "c1") [demoCategoryWith u2] =
      some (demoCategoryWith u2) := rfl
  have hupd1 := updateCategory_imageOnly [demoCategoryWith u1] destroyOk
    "c1" u2 (demoCategoryWith u1) hf1
  have hupd2 := updateCategory_imageOnly [demoCategoryWith u2] destroyOk2
    "c1" u2 (demoCategoryWith u2) hf2
  rw [if_pos ⟨h2, hne2, h1⟩] at hupd1
  rw [if_neg (fun h => h.2.1 rfl)] at hupd2
  have hdel : deleteImageFromCloudinary destroyOk u1 =
      { attempts := [u1], destroyCalls := [(pid, destroyOk pid)] } := by
    simp only [deleteImageFromCloudinary, hex]
    rw [if_neg h1, if_neg hpid]
  refine ⟨rfl, ?_, ?_, ?_, ?_, ?_⟩
  · rw [hupd1]
    show (deleteImageFromCloudinary destroyOk (demoCategoryWith u1).image).destroyCalls = _
    rw [show (demoCategoryWith u1).image = u1 from rfl, hdel]
  · rw [hupd1]
    rfl
  · rw [hupd1]
    rfl
  · rw [hupd2]
    rfl
  · rw [hupd2]
    rfl

theorem claim_C7_witness :
    createCategory [] "c1" 0 ⟨some ("Cat"), none, some demoUrl1⟩ =
        (CatResult.ok (demoCategoryWith demoUrl1),
          [demoCategoryWith demoUrl1]) ∧
      (updateCategory [demoCategoryWith demoUrl1] (fun _ => false) "c1"
          ⟨none, none, some demoUrl2⟩).2.1.destroyCalls =
        [("cats/one", (fun _ => false) ("cats/one"))] ∧
      (updateCategory [demoCategoryWith demoUrl1] (fun _ => false) "c1"
          ⟨none, none, some demoUrl2⟩).1 =
        CatResult.ok (demoCategoryWith demoUrl2) ∧
      (updateCategory [demoCategoryWith demoUrl1] (fun _ => false) "c1"
          ⟨none, none, some demoUrl2⟩).2.2 = [demoCategoryWith demoUrl2] ∧
      (updateCategory [demoCategoryWith demoUrl2] (fun _ => true) "c1"
          ⟨none, none, some demoUrl2⟩).2.1.destroyCalls = [] ∧
      (updateCategory [demoCategoryWith demoUrl2] (fun _ => true) "c1"
          ⟨none, none, some demoUrl2⟩).2.1.attempts = [] :=
  claim_C7_category_image_roundtrip (fun _ => false) (fun _ => true)
    demoUrl1 demoUrl2 "cats/one" (by decide) (by decide) (by decide)
    (by decide) (by decide)

/-! ## Pagination lemmas -/

theorem jsCeilDiv_mul_ge (a : Nat) (b : Int) (hb : 0 < b) :
    (a : Int) ≤ jsCeilDiv a b * b := by
  have hbq : (0 : ℚ) < (b : ℚ) := by exact_mod_cast hb
  have h := Int.le_ceil ((a : ℚ) / (b : ℚ))
  rw [div_le_iff₀ hbq] at h
  unfold jsCeilDiv
  rw [← @Int.cast_le ℚ]
  push_cast
  exact h

theorem paginate_empty (filtered : List Product) (page limit : Int)
    (hl1 : 1 ≤ limit) (h : jsCeilDiv filtered.length limit < page) :
    ((filtered.insertionSort byNewest).drop
      (((page - 1) * limit).toNat)).take limit.toNat = [] := by
  have htc : (filtered.length : Int) ≤ (page - 1) * limit := by
    have h1 : jsCeilDiv filtered.length limit ≤ page - 1 := by omega
    have h2 := jsCeilDiv_mul_ge filtered.length limit (by omega)
    calc (filtered.length : Int) ≤ jsCeilDiv filtered.length limit * limit := h2
      _ ≤ (page - 1) * limit := mul_le_mul_of_nonneg_right h1 (by omega)
  have hlen : (filtered.insertionSort byNewest).length ≤
      ((page - 1) * limit).toNat := by
    rw [List.length_insertionSort]
    have := Int.toNat_le_toNat htc
    simpa using this
  rw [List.drop_eq_nil_of_le hlen, List.take_nil]

theorem sorted_paginated (filtered : List Product) (n m : Nat) :
    List.Sorted byNewest
      (((filtered.insertionSort byNewest).drop n).take m) := by
  have hs : List.Sorted byNewest (filtered.insertionSort byNewest) :=
    List.sorted_insertionSort byNewest filtered
  exact hs.sublist
    ((List.take_sublist _ _).trans (List.drop_sublist _ _))

/-- C4: for every listing request with positive effective page and limit the
pagination envelope is correct: the current page and limit echo the inputs,
the total count is over the whole filtered set (independent of the page
window), totalPages is the rational ceiling of the count over the limit, the
availability flags are `page < totalPages` and `page > 1`, the page window is
`skip = (page-1)*limit` of the newest-first sorted list, results are sorted
newest first, a page beyond totalPages gives an empty list, and the concrete
scenario (15 matching products, page 2, limit 10) yields 5 products,
totalPages 2, hasNextPage false, hasPrevPage true. -/
theorem claim_C4_pagination_envelope
    (db : List Product) (pageQ limitQ searchQ : Option String)
    (page limit : Int)
    (hp : effInt pageQ 1 = page) (hl : effInt limitQ 10 = limit)
    (hp1 : 1 ≤ page) (hl1 : 1 ≤ limit) :
    (getAllProducts db pageQ limitQ searchQ).pagination.currentPage = page ∧
      (getAllProducts db pageQ limitQ searchQ).pagination.limit = limit ∧
      (getAllProducts db pageQ limitQ searchQ).pagination.totalProducts =
        (if jsTrimTruthy (searchQ.getD "") then
          db.filter (productMatches (searchQ.getD "")) else db).length ∧
      (getAllProducts db pageQ limitQ searchQ).pagination.totalPages =
        ⌈((if jsTrimTruthy (searchQ.getD "") then
            db.filter (productMatches (searchQ.getD "")) else db).length : ℚ) /
          (limit : ℚ)⌉ ∧
      ((getAllProducts db pageQ limitQ searchQ).pagination.hasNextPage = true ↔
        page < (getAllProducts db pageQ limitQ searchQ).pagination.totalPages) ∧
      ((getAllProducts db pageQ limitQ searchQ).pagination.hasPrevPage = true ↔
        1 < page) ∧
      (getAllProducts db pageQ limitQ searchQ).products =
        (((if jsTrimTruthy (searchQ.getD "") then
            db.filter (productMatches (searchQ.getD "")) else db).insertionSort
              byNewest).drop ((page - 1) * limit).toNat).take limit.toNat ∧
      List.Sorted byNewest (getAllProducts db pageQ limitQ searchQ).products ∧
      ((getAllProducts db pageQ limitQ searchQ).pagination.totalPages < page →
        (getAllProducts db pageQ limitQ searchQ).products = []) ∧
      (getAllProducts demoDb (some "2") (some "10")
        (some "rtx")).products.length = 5 ∧
      (getAllProducts demoDb (some "2") (some "10")
        (some "rtx")).pagination.totalProducts = 15 ∧
      (getAllProducts demoDb (some "2") (some "10")
        (some "rtx")).pagination.totalPages = 2 ∧
      (getAllProducts demoDb (some "2") (some "10")
        (some "rtx")).pagination.hasNextPage = false ∧
      (getAllProducts demoDb (some "2") (some "10")
        (some "rtx")).pagination.hasPrevPage = true := by
  subst hp
  subst hl
  have hceil : jsCeilDiv 15 10 = 2 := by
    unfold jsCeilDiv
    rw [Int.ceil_eq_iff]
    norm_num
  have hnext : (getAllProducts demoDb (some "2") (some "10")
      (some "rtx")).pagination.hasNextPage =
      decide ((2 : Int) < jsCeilDiv 15 10) := rfl
  have htp : (getAllProducts demoDb (some "2") (some "10")
      (some "rtx")).pagination.totalPages = jsCeilDiv 15 10 := rfl
  rw [hceil] at hnext htp
  refine ⟨rfl, rfl, rfl, rfl, decide_eq_true_iff, decide_eq_true_iff,
    rfl, ?_, ?_, ?_, rfl, htp, ?_, rfl⟩
  · exact sorted_paginated _ _ _
  · intro hlt
    exact paginate_empty _ _ _ hl1 hlt
  · decide
  · rw [hnext]
    decide

theorem claim_C4_witness :
    (getAllProducts [] (some "1") none none).pagination.currentPage = 1 ∧
      (getAllProducts [] (some "1") none none).pagination.limit = 10 ∧
      (getAllProducts [] (some "1") none none).pagination.totalProducts =
        (if jsTrimTruthy ((none : Option String).getD "") then
          List.filter (productMatches ((none : Option String).getD "")) []
          else []).length ∧
      (getAllProducts [] (some "1") none none).pagination.totalPages =
        ⌈((if jsTrimTruthy ((none : Option String).getD "") then
            List.filter (productMatches ((none : Option String).getD "")) []
            else []).length : ℚ) / ((10 : Int) : ℚ)⌉ ∧
      ((getAllProducts [] (some "1") none none).pagination.hasNextPage = true ↔
        1 < (getAllProducts [] (some "1") none none).pagination.totalPages) ∧
      ((getAllProducts [] (some "1") none none).pagination.hasPrevPage = true ↔
        (1 : Int) < 1) ∧
      (getAllProducts [] (some "1") none none).products =
        (((if jsTrimTruthy ((none : Option String).getD "") then
            List.filter (productMatches ((none : Option String).getD "")) []
            else []).insertionSort byNewest).drop
              (((1 : Int) - 1) * 10).toNat).take (10 : Int).toNat ∧
      List.Sorted byNewest (getAllProducts [] (some "1") none none).products ∧
      ((getAllProducts [] (some "1") none none).pagination.totalPages < 1 →
        (getAllProducts [] (some "1") none none).products = []) ∧
      (getAllProducts demoDb (some "2") (some "10")
        (some "rtx")).products.length = 5 ∧
      (getAllProducts demoDb (some "2") (some "10")
        (some "rtx")).pagination.totalProducts = 15 ∧
      (getAllProducts demoDb (some "2") (some "10")
        (some "rtx")).pagination.totalPages = 2 ∧
      (getAllProducts demoDb (some "2") (some "10")
        (some "rtx")).pagination.hasNextPage = false ∧
      (getAllProducts demoDb (some "2") (some "10")
        (some "rtx")).pagination.hasPrevPage = true :=
  claim_C4_pagination_envelope [] (some "1") none none 1 10 rfl rfl
    (by decide) (by decide)

/-! ## Query parameter defaulting -/

theorem effInt_ne_zero (q : Option String) (d : Int) (hd : d ≠ 0) :
    effInt q d ≠ 0 := by
  unfold effInt jsOrInt
  cases jsParseIntOpt q with
  | none => exact hd
  | some n =>
    show (if n = 0 then d else n) ≠ 0
    by_cases hn : n = 0
    · rw [if_pos hn]
      exact hd
    · rw [if_neg hn]
      exact hn

/-- C10: a limit query value parsing to 0 or NaN is replaced by the default
10 and a page value parsing to 0 or NaN by the default 1, in both the
product and the category listing; the effective limit (the divisor of the
totalPages ceiling) is never 0 for any input. -/
theorem claim_C10_parse_defaults
    (db : List Product) (cdb : List Category)
    (pageQ limitQ searchQ pageQ2 limitQ2 searchQ2 : Option String)
    (hl : jsParseIntOpt limitQ = none ∨ jsParseIntOpt limitQ = some 0)
    (hp : jsParseIntOpt pageQ = none ∨ jsParseIntOpt pageQ = some 0) :
    (getAllProducts db pageQ limitQ searchQ).pagination.limit = 10 ∧
      (getAllProducts db pageQ limitQ searchQ).pagination.currentPage = 1 ∧
      (getAllCategories cdb pageQ limitQ searchQ).pagination.limit = 10 ∧
      (getAllCategories cdb pageQ limitQ searchQ).pagination.currentPage = 1 ∧
      (getAllProducts db pageQ2 limitQ2 searchQ2).pagination.limit ≠ 0 ∧
      (getAllCategories cdb pageQ2 limitQ2 searchQ2).pagination.limit ≠ 0 := by
  have hlv : effInt limitQ 10 = 10 := by
    unfold effInt jsOrInt
    rcases hl with h | h <;> rw [h]
    rfl
  have hpv : effInt pageQ 1 = 1 := by
    unfold effInt jsOrInt
    rcases hp with h | h <;> rw [h]
    rfl
  refine ⟨?_, ?_, ?_, ?_, ?_, ?_⟩
  · exact hlv
  · exact hpv
  · exact hlv
  · exact hpv
  · exact effInt_ne_zero limitQ2 10 (by decide)
  · exact effInt_ne_zero limitQ2 10 (by decide)

theorem claim_C10_witness :
    (getAllProducts [] (some "0") (some "abc") none).pagination.limit = 10 ∧
      (getAllProducts [] (some "0") (some "abc")
        none).pagination.currentPage = 1 ∧
      (getAllCategories [] (some "0") (some "abc") none).pagination.limit
        = 10 ∧
      (getAllCategories [] (some "0") (some "abc")
        none).pagination.currentPage = 1 ∧
      (getAllProducts [] none (some "-3") none).pagination.limit ≠ 0 ∧
      (getAllCategories [] none (some "-3") none).pagination.limit ≠ 0 :=
  claim_C10_parse_defaults [] [] (some "0") (some "abc") none none
    (some "-3") none (by decide) (by decide)
